import Mathlib

/-!
Verification development for the `onlinejudge` URL-dispatch and Topcoder
sample-extraction code (`src/onlinejudge/dispatch.py` and
`src/onlinejudge/service/topcoder.py`).

The Python code is shallowly embedded: strings are Lean `String`s (backed by
`List Char`), Python `str` primitives (`split`, `join`, `strip`, slicing,
`int(...)`, `startswith`) are modelled by executable Lean functions below,
fallible code returns `Option`/`Except`, and the BeautifulSoup document tree
is modelled by an explicit rose tree with path-based parent/sibling
navigation (the only capabilities the code uses: find by tag/class/text,
find_all, next_sibling, parent).
-/

namespace OJ

/-! ## Models of the Python `str` primitives used by the code -/

/-- The whitespace characters recognised by Python `str.strip()`
(restricted to ASCII; the pages at hand contain no Unicode spaces). -/
def isPySpace (c : Char) : Bool :=
  c = ' ' || c = '\t' || c = '\n' || c = '\r' || c = '\x0b' || c = '\x0c'

/-- Model of Python `str.strip()`: drop leading and trailing whitespace. -/
def pyStrip (s : String) : String :=
  ⟨((s.data.dropWhile isPySpace).reverse.dropWhile isPySpace).reverse⟩

/-- Model of Python `sep.join(xs)` for a list of strings. -/
def pyJoin (sep : String) : List String → String
  | [] => ""
  | [x] => x
  | x :: xs => x ++ sep ++ pyJoin sep xs

/-- Character-level worker for Python `str.split(sep)` (single-character
separator): `acc` is the current chunk, reversed. -/
def splitAux (sep : Char) : List Char → List Char → List (List Char)
  | [], acc => [acc.reverse]
  | c :: rest, acc =>
    if c = sep then acc.reverse :: splitAux sep rest []
    else splitAux sep rest (c :: acc)

/-- Model of Python `s.split(sep)` for a one-character separator `sep`.
Like Python, `"".split(sep) == [""]` and separators at the ends produce
empty chunks. -/
def pySplit (sep : Char) (s : String) : List String :=
  (splitAux sep s.data []).map String.mk

/-- Model of the Python slice `x[1:-1]`. -/
def pyInner (x : String) : String :=
  ⟨(x.data.drop 1).dropLast⟩

/-- Model of Python `s[n:]`. -/
def pyDrop (s : String) (n : Nat) : String :=
  ⟨s.data.drop n⟩

/-- Model of Python `s.startswith(pre)`. -/
def pyStartsWith (s pre : String) : Bool :=
  pre.data.isPrefixOf s.data

/-- Model of Python `s.endswith(suf)`. -/
def pyEndsWith (s suf : String) : Bool :=
  suf.data.isSuffixOf s.data

/-- Value of a nonempty list of decimal digits; `none` if the list is empty
or contains a non-digit. -/
def decDigits? (l : List Char) : Option Nat :=
  match l with
  | [] => none
  | _ =>
    if l.all Char.isDigit then
      some (l.foldl (fun a c => 10 * a + (c.toNat - 48)) 0)
    else none

/-- Model of Python `int(s)` (strict base-10 conversion): surrounding
whitespace is stripped, an optional sign is allowed, then a nonempty run of
decimal digits; anything else raises `ValueError`, modelled as `none`.
(Underscores between digits, accepted by CPython, are not modelled; no URL
in the claims contains one.) -/
def pyInt (s : String) : Option Int :=
  match (pyStrip s).data with
  | '+' :: rest => (decDigits? rest).map Int.ofNat
  | '-' :: rest => (decDigits? rest).map (fun k => -(k : Int))
  | l => (decDigits? l).map Int.ofNat

/-! ## `_convert_to_greed` (src/onlinejudge/service/topcoder.py, lines 78-88) -/

/-- Embedding of `_convert_to_greed`:
a brace-delimited comma-separated list becomes the element count followed by
the stripped elements, space-separated; a double-quoted token loses its
quotes; anything else passes through unchanged. -/
def _convert_to_greed (x : String) : String :=
  if pyStartsWith x "\x7b" && pyEndsWith x "\x7d" then
    let ys := pySplit ',' (pyInner x)
    pyJoin " " (toString ys.length :: ys.map pyStrip)
  else if pyStartsWith x "\"" && pyEndsWith x "\"" then
    pyInner x
  else
    x

/-! ## The dispatch registry (src/onlinejudge/dispatch.py)

The registries are module-level lists of handler classes; each class
contributes its `from_url` classmethod. A handler is therefore modelled as
a function `String → Option α` and a registry as a list of handlers. -/

/-- Embedding of `submission_from_url` (dispatch.py lines 32-39): try each
registered handler in order, return the first non-`None` result, else
`None`. -/
def submission_from_url {α : Type} (submissions : List (String → Option α)) (url : String) :
    Option α :=
  match submissions with
  | [] => none
  | cls :: rest =>
    match cls url with
    | some submission => some submission
    | none => submission_from_url rest url

/-- Embedding of `problem_from_url` (dispatch.py lines 45-60): try each
registered problem handler in registration order, return the first
non-`None` result, else `None`. -/
def problem_from_url {α : Type} (problems : List (String → Option α)) (url : String) :
    Option α :=
  match problems with
  | [] => none
  | cls :: rest =>
    match cls url with
    | some problem => some problem
    | none => problem_from_url rest url

/-- Embedding of `service_from_url` (dispatch.py lines 79-92): try each
registered service handler in order; if none matches, resolve the URL as a
submission and return its `get_service()`; failing that, resolve it as a
problem and return its `get_service()`; otherwise `None`.
`subService`/`probService` model the entities' `get_service` methods. -/
def service_from_url {σ β γ : Type} (services : List (String → Option σ))
    (submissions : List (String → Option β)) (problems : List (String → Option γ))
    (subService : β → σ) (probService : γ → σ) (url : String) : Option σ :=
  match services with
  | cls :: rest =>
    match cls url with
    | some service => some service
    | none => service_from_url rest submissions problems subService probService url
  | [] =>
    match submission_from_url submissions url with
    | some submission => some (subService submission)
    | none =>
      match problem_from_url problems url with
      | some problem => some (probService problem)
      | none => none

/-! ## The Topcoder URL matcher (src/onlinejudge/service/topcoder.py)

`urllib.parse.urlparse` is the standard library (an external collaborator per
§6 of the spec); the matcher is modelled as receiving the URL already
decomposed into the five components `urlparse` produces. -/

/-- The result of `urllib.parse.urlparse`: scheme, netloc, path, query and
fragment of a URL. -/
structure ParseResult where
  scheme : String
  netloc : String
  path : String
  query : String
  fragment : String

/-- Modelled from the spec: `onlinejudge._implementation.utils.normpath` is
repository code outside `src/`. Per §4.2 the matcher checks the "path shape
(exact match or prefix)" after canonicalising the path, and on the
already-canonical paths and fragments of the documented URL forms
canonicalisation is the identity. -/
def normpath (path : String) : String := path

/-- Helper for `parse_qsl`: split a field at its first equals sign, `none`
when it has no equals sign. -/
def breakAtEq : List Char → Option (List Char × List Char)
  | [] => none
  | c :: rest =>
    if c = '=' then some ([], rest)
    else (breakAtEq rest).map (fun kv => (c :: kv.1, kv.2))

/-- Model of the standard library `urllib.parse.parse_qsl` with default
arguments, restricted to queries without percent-escapes or plus-encoded
spaces (none of the URLs at hand has any): split the query string on the
ampersand; a field without an equals sign, or with an empty value, is
dropped; the remaining key/value pairs are kept in order. -/
def parse_qsl (query : String) : List (String × String) :=
  (pySplit '&' query).filterMap fun field =>
    match breakAtEq field.data with
    | none => none
    | some (k, v) => if v = [] then none else some (⟨k⟩, ⟨v⟩)

/-- `parse_qs(query).get(k, [])`: all values bound to key `k`, in order. -/
def qsGet (q : List (String × String)) (k : String) : List String :=
  (q.filter (fun kv => kv.1 == k)).map (fun kv => kv.2)

/-- `TopcoderArenaProblem` (topcoder.py line 91): an entity holding the
numeric problem id. -/
structure TopcoderArenaProblem where
  problem_id : Int
deriving DecidableEq, Repr

/-- Embedding of `TopcoderArenaProblem.get_url` (topcoder.py lines 203-204). -/
def TopcoderArenaProblem.get_url (self : TopcoderArenaProblem) : String :=
  "https://community.topcoder.com/stat?c=problem_statement&pm=" ++ toString self.problem_id

/-- Embedding of `TopcoderArenaProblem.from_url` (topcoder.py lines 206-234):
accept `arena.topcoder.com` URLs whose fragment is
`/u/practiceCode/<round>/<component>/<problem>/<division>/<room>` with all
five segments parsing as integers, and `community.topcoder.com/stat` URLs
with query `c=problem_statement&pm=<problem>`; return `none` otherwise. -/
def TopcoderArenaProblem.from_url (result : ParseResult) : Option TopcoderArenaProblem :=
  if result.scheme = "" ∨ result.scheme = "http" ∨ result.scheme = "https" then
    let arenaBranch : Option TopcoderArenaProblem :=
      if result.netloc = "arena.topcoder.com" ∧
          (normpath result.path = "/" ∨ normpath result.path = "/index.html") then
        let dirs := pySplit '/' (normpath result.fragment)
        if dirs.length = 8 ∧ dirs.getD 0 "" = "" ∧ dirs.getD 1 "" = "u" ∧
            dirs.getD 2 "" = "practiceCode" then
          -- try: int(dirs[3]); int(dirs[4]); problem_id = int(dirs[5]);
          --      int(dirs[6]); int(dirs[7])
          -- except ValueError: pass  (falls through and ends in `return None`)
          (do
            let _ ← pyInt (dirs.getD 3 "")
            let _ ← pyInt (dirs.getD 4 "")
            let problem_id ← pyInt (dirs.getD 5 "")
            let _ ← pyInt (dirs.getD 6 "")
            let _ ← pyInt (dirs.getD 7 "")
            pure { problem_id := problem_id })
        else none
      else none
    match arenaBranch with
    | some problem => some problem
    | none =>
      if result.netloc = "community.topcoder.com" ∧ normpath result.path = "/stat" then
        let query := parse_qsl result.query
        if qsGet query "c" = ["problem_statement"] ∧ (qsGet query "pm").length = 1 then
          match qsGet query "pm" with
          | [pm0] => (pyInt pm0).map (fun problem_id => { problem_id := problem_id })
          | _ => none
        else none
      else none
  else none

/-- The `ParseResult` of the documented arena URL form
`https://arena.topcoder.com/index.html#/u/practiceCode/<round>/<component>/<problem>/<division>/<room>`
with the five fragment segments given as strings. -/
def arenaURL (round_id component_id problem_id division_id room_id : String) : ParseResult :=
  { scheme := "https", netloc := "arena.topcoder.com", path := "/index.html", query := "",
    fragment := "/u/practiceCode/" ++ round_id ++ "/" ++ component_id ++ "/" ++ problem_id ++
      "/" ++ division_id ++ "/" ++ room_id }

/-- The `ParseResult` of the documented community URL form
`https://community.topcoder.com/stat?c=problem_statement&pm=<problem>`. -/
def communityURL (problem_id : String) : ParseResult :=
  { scheme := "https", netloc := "community.topcoder.com", path := "/stat",
    query := "c=problem_statement&pm=" ++ problem_id, fragment := "" }

/-! ## The document tree (the BeautifulSoup capability used by the code)

Per §6 of the spec the code needs only: find-all-by-tag-and-class,
find-first-by-tag-and-exact-text, next-sibling and parent navigation, and
the `.string` accessor. A node is an element (tag name, css classes,
children, text nodes included) or a bare text node; navigation works on
child-index paths from a root. -/

inductive Node where
  | elem (tag : String) (classes : List String) (children : List Node)
  | text (s : String)

/-- The tag name; `none` for text nodes (as in bs4, where `.name is None`). -/
def Node.name : Node → Option String
  | .elem tag _ _ => some tag
  | .text _ => none

/-- The css classes of an element. -/
def Node.classes : Node → List String
  | .elem _ cls _ => cls
  | .text _ => []

/-- The children of an element (text nodes included). -/
def Node.childNodes : Node → List Node
  | .elem _ _ cs => cs
  | .text _ => []

/-- bs4 `.string`: a text node is its own string; an element with exactly one
child has that child's `.string`; any other element has `none`. -/
def Node.string : Node → Option String
  | .text s => some s
  | .elem _ _ [c] => Node.string c
  | .elem _ _ _ => none

/-- The node reached from `n` by the child-index path `p`. -/
def getAt : Node → List Nat → Option Node
  | n, [] => some n
  | n, i :: rest =>
    match n.childNodes.get? i with
    | some c => getAt c rest
    | none => none

mutual

/-- Paths (in document order, i.e. preorder) of all proper descendants of a
node satisfying `p`; models bs4 `find_all`. -/
def findPathsIn (p : Node → Bool) : Node → List (List Nat)
  | .text _ => []
  | .elem _ _ cs => findPathsChildren p cs 0

/-- Worker for `findPathsIn`: search a child list starting at index `i`. -/
def findPathsChildren (p : Node → Bool) : List Node → Nat → List (List Nat)
  | [], _ => []
  | c :: rest, i =>
    (if p c then [[i]] else []) ++ (findPathsIn p c).map (i :: ·) ++
      findPathsChildren p rest (i + 1)

end

/-- bs4 `find`: path of the first matching descendant, document order. -/
def findPath (p : Node → Bool) (n : Node) : Option (List Nat) :=
  (findPathsIn p n).head?

/-- bs4 `find_all`, as nodes. -/
def findNodes (p : Node → Bool) (n : Node) : List Node :=
  (findPathsIn p n).filterMap (getAt n)

/-- bs4 `find`, as a node. -/
def findNode (p : Node → Bool) (n : Node) : Option Node :=
  (findNodes p n).head?

/-- The path of the parent node; `none` at the root. -/
def parentPath : List Nat → Option (List Nat)
  | [] => none
  | p => some p.dropLast

/-- The path of the next sibling (which need not exist in the tree). -/
def nextSibPath : List Nat → Option (List Nat)
  | [] => none
  | [i] => some [i + 1]
  | i :: rest => (nextSibPath rest).map (i :: ·)

/-- bs4 `next_sibling` of the node at `p`, resolved in `root`. -/
def nextSibNode (root : Node) (p : List Nat) : Option Node :=
  match nextSibPath p with
  | none => none
  | some q => getAt root q

/-- The siblings after the node at `p`, in order; this is the list the
example-loop cursor walks through (bs4 `next_sibling` iterated). -/
def sibsAfter (root : Node) (p : List Nat) : List Node :=
  match p.getLast?, parentPath p with
  | some j, some q =>
    match getAt root q with
    | some par => par.childNodes.drop (j + 1)
    | none => []
  | _, _ => []

/-- Matches bs4 `find(tag)`. -/
def isTag (t : String) (n : Node) : Bool :=
  n.name == some t

/-- Matches bs4 `find(tag, class_=c)`. -/
def isTagClass (t c : String) (n : Node) : Bool :=
  n.name == some t && n.classes.contains c

/-- Matches bs4 `find(tag, text=txt)`. -/
def isTagText (t txt : String) (n : Node) : Bool :=
  n.name == some t && n.string == some txt

/-- Matches bs4 `find(tag, class_=c, text=txt)`. -/
def isTagClassText (t c txt : String) (n : Node) : Bool :=
  n.name == some t && n.classes.contains c && n.string == some txt

/-! ## The sample-extraction engine (topcoder.py `_download_data`, lines 98-198) -/

/-- Modelled from the spec: the error taxonomy of §7. `SampleParseError`
(declared in `onlinejudge.type`, outside `src/`) is the extraction-layer
failure; `attributeError` models the Python `AttributeError` that escapes
when the code dereferences an attribute of `None` without a check. -/
inductive PyError where
  | sampleParseError (msg : String)
  | attributeError
deriving DecidableEq, Repr

/-- Modelled from the spec: `TestCase` (declared in `onlinejudge.type`,
outside `src/`) is "an immutable record `{ name, input_label, input_bytes,
output_label, output_bytes }`" (§3); the bytes fields hold UTF-8 encoded
text and are modelled by the text itself (UTF-8 encoding is injective). -/
structure TestCase where
  name : String
  input_label : String
  input_bytes : String
  output_label : String
  output_bytes : String
deriving DecidableEq, Repr

/-- `_TopcoderArenaData` (topcoder.py lines 40-46): the parsed problem data.
The diagnostic `__print_hint` call only logs and is not modelled. -/
structure _TopcoderArenaData where
  definition : List (String × Option String)
  raw_sample_cases : List TestCase
  sample_cases : List TestCase
deriving DecidableEq, Repr

/-- Embedding of `_TopcoderArenaData.__init__` (topcoder.py lines 41-44):
note that the body binds BOTH `self.raw_sample_cases` and
`self.sample_cases` to the `sample_cases` argument. -/
def _TopcoderArenaData.init (definition : List (String × Option String))
    (raw_sample_cases : List (List String × String)) (sample_cases : List TestCase) :
    _TopcoderArenaData :=
  { definition := definition, raw_sample_cases := sample_cases, sample_cases := sample_cases }

/-- The five expected Definition-section field labels with their dict keys,
in the iteration (= insertion) order of the dict literal at topcoder.py
lines 128-134. -/
def fieldSpecs : List (String × String) :=
  [("Class:", "class"), ("Method:", "method"), ("Parameters:", "parameters"),
   ("Returns:", "returns"), ("Method signature:", "method_signature")]

/-- Worker for `readDefinition`: the loop body of topcoder.py lines 128-137.
For each label, `find` the `<td class="statText">` with that exact text in
the section row; the code dereferences the result without a `None` check
(`td.parent`, `td.next_sibling`), so an absent label, or an absent next
sibling, raises `AttributeError`. -/
def readDefinitionGo (sect : Node) :
    List (String × String) → List (String × Option String) →
    Except PyError (List (String × Option String))
  | [], acc => .ok acc
  | (text, key) :: rest, acc =>
    match findPath (isTagClassText "td" "statText" text) sect with
    | none => .error .attributeError
    | some p =>
      match nextSibNode sect p with
      | none => .error .attributeError
      | some sib => readDefinitionGo sect rest (acc ++ [(key, sib.string)])

/-- Embedding of the Definition-section field loop (topcoder.py lines
127-137), run on the row following the Definition heading's grandparent. -/
def readDefinition (sect : Node) : Except PyError (List (String × Option String)) :=
  readDefinitionGo sect fieldSpecs []

/-- Embedding of the `<pre>` scan of one example block (topcoder.py lines
175-184): collect input strings until the one starting with `Returns: `,
which (marker stripped) is the output; no such `<pre>` is a
`SampleParseError`; a `<pre>` whose `.string` is `None` makes
`pre.string.startswith` raise `AttributeError`. -/
def scanPres : List Node → List String → Except PyError (List String × String)
  | [], _ => .error (.sampleParseError "<pre>Returns: ...</pre> is expected, but not found")
  | p :: rest, inputs =>
    match p.string with
    | none => .error .attributeError
    | some s =>
      if pyStartsWith s "Returns: " then .ok (inputs, pyDrop s 9)
      else scanPres rest (inputs ++ [s])

/-- Embedding of the example-reading `while` loop (topcoder.py lines
159-185) over the list of siblings following the Examples heading row.
A non-`tr` (or missing) cursor ends the loop; the header row's first `td`
must read `<k>)` where `k` is the number of examples collected so far,
otherwise `SampleParseError`; the following sibling must be a `tr` holding
the `<pre>` block. `cursor.find('td')` returning `None` makes the
`.string` access raise `AttributeError`. -/
def readExamples : List Node → List (List String × String) →
    Except PyError (List (List String × String))
  | [], acc => .ok acc
  | r :: rest, acc =>
    match r.name == some "tr" with
    | false => .ok acc
    | true =>
      match findNode (isTag "td") r with
      | none => .error .attributeError
      | some td =>
        match td.string == some (toString acc.length ++ ")") with
        | false =>
          .error (.sampleParseError
            ("<td ...>)" ++ toString acc.length ++ ")</td> is expected, but not found"))
        | true =>
          match rest with
          | [] => .error (.sampleParseError "<tr>...</tr> is expected, but not found")
          | r2 :: rest2 =>
            match r2.name == some "tr" with
            | false => .error (.sampleParseError "<tr>...</tr> is expected, but not found")
            | true =>
              match scanPres (findNodes (isTag "pre") r2) [] with
              | .error e => .error e
              | .ok (input_items, output_item) =>
                readExamples rest2 (acc ++ [(input_items, output_item)])

/-- Worker for `convertSampleCases`, carrying the `enumerate` index. -/
def convertFrom : Nat → List (List String × String) → List TestCase
  | _, [] => []
  | i, (input_items, output_item) :: rest =>
    { name := "Example #" ++ toString i,
      input_label := "input",
      input_bytes := pyJoin "\n" (input_items.map _convert_to_greed) ++ "\n",
      output_label := "output",
      output_bytes := _convert_to_greed output_item } :: convertFrom (i + 1) rest

/-- Embedding of the Greed-format conversion loop (topcoder.py lines
188-196). -/
def convertSampleCases (raw : List (List String × String)) : List TestCase :=
  convertFrom 0 raw

/-- Embedding of `TopcoderArenaProblem._download_data` (topcoder.py lines
98-198) from the parsed document onward (the HTTP fetch and HTML parsing
are the external collaborators of §6; `soup` is the resulting tree).
A `parent` or `next_sibling` step leaving the modelled subtree is resolved
as in bs4 when the node exists, and as an absent node otherwise. -/
def _download_data (soup : Node) : Except PyError _TopcoderArenaData :=
  match findNodes (isTagClass "td" "problemText") soup with
  | [problem_text] =>
    match findPath (isTagText "h3" "Definition") problem_text with
    | none => .error (.sampleParseError "<h3>Definition</h3> is not found")
    | some p =>
      -- h3.parent.parent.next_sibling
      match (do
          let q ← parentPath p
          let r ← parentPath q
          let sp ← nextSibPath r
          getAt problem_text sp) with
      | none => .error .attributeError
      | some sect =>
        match readDefinition sect with
        | .error e => .error e
        | .ok definition =>
          match findPath (isTagText "h3" "Examples") problem_text with
          | none => .error (.sampleParseError "<h3>Examples</h3> is not found")
          | some pe =>
            -- cursor = h3.parent.parent, then the loop walks next_siblings
            match (do
                let q ← parentPath pe
                parentPath q) with
            | none => .error .attributeError
            | some rowPath =>
              match readExamples (sibsAfter problem_text rowPath) [] with
              | .error e => .error e
              | .ok raw_sample_cases =>
                .ok (_TopcoderArenaData.init definition raw_sample_cases
                  (convertSampleCases raw_sample_cases))
  | _ => .error (.sampleParseError "<td class=\"problemText\"> is not found or not unique")

/-- Embedding of `download_sample_cases` (topcoder.py lines 200-201). -/
def download_sample_cases (soup : Node) : Except PyError (List TestCase) :=
  (_download_data soup).map _TopcoderArenaData.sample_cases

end OJ
namespace OJ

/-! ## Concrete document fixtures used by witnesses and counterexamples -/

/-- `true` exactly when an extraction result is a raised `SampleParseError`. -/
def raisedSampleParseError {α : Type} : Except PyError α → Bool
  | .error (.sampleParseError _) => true
  | _ => false

/-- A Definition-section row `<tr><td class="statText">label</td><td>value</td></tr>`. -/
def defnPair (label value : String) : Node :=
  .elem "tr" [] [.elem "td" ["statText"] [.text label], .elem "td" [] [.text value]]

/-- A Definition section whose `Class:` labelled field is absent (the other
four expected labels are present). -/
def secMissingClass : Node :=
  .elem "tr" [] [.elem "td" [] [], .elem "td" [] [.elem "table" [] [
    defnPair "Method:" "bar",
    defnPair "Parameters:" "int",
    defnPair "Returns:" "int",
    defnPair "Method signature:" "int bar(int a)"]]]

/-- An example-block header row whose label reads `2)` (instead of `0)`). -/
def mismatchRow : Node :=
  .elem "tr" [] [.elem "td" [] [.text "2)"]]

end OJ
namespace OJ

theorem mk_data (s : String) : String.mk s.data = s := rfl

theorem data_ne_nil {s : String} (h : s ≠ "") : s.data ≠ [] := by
  intro hd
  exact h (by cases s; simp at hd; simp [hd])

theorem splitAux_append_no_sep (sep : Char) {m : List Char} (hm : sep ∉ m)
    (rest acc : List Char) :
    splitAux sep (m ++ rest) acc = splitAux sep rest (m.reverse ++ acc) := by
  induction m generalizing acc with
  | nil => simp
  | cons c t ih =>
    have hc : ¬ c = sep := fun h => hm (by simp [h])
    have ht : sep ∉ t := fun h => hm (List.mem_cons_of_mem _ h)
    simp only [List.cons_append, splitAux, if_neg hc, List.reverse_cons,
      List.append_assoc, List.singleton_append]
    exact ih ht (c :: acc)

theorem splitAux_sep_cons (sep : Char) (rest acc : List Char) :
    splitAux sep (sep :: rest) acc = acc.reverse :: splitAux sep rest [] := by
  simp [splitAux]

theorem splitAux_chunk (sep : Char) {m : List Char} (hm : sep ∉ m)
    (rest acc : List Char) :
    splitAux sep (m ++ sep :: rest) acc = (acc.reverse ++ m) :: splitAux sep rest [] := by
  rw [splitAux_append_no_sep sep hm, splitAux_sep_cons]
  simp

theorem splitAux_no_sep (sep : Char) {m : List Char} (hm : sep ∉ m) (acc : List Char) :
    splitAux sep m acc = [acc.reverse ++ m] := by
  have h := splitAux_append_no_sep sep hm [] acc
  simp only [List.append_nil] at h
  rw [h]
  simp [splitAux]

theorem splitAux_length (sep : Char) (l acc : List Char) :
    (splitAux sep l acc).length = l.count sep + 1 := by
  induction l generalizing acc with
  | nil => simp [splitAux]
  | cons c t ih =>
    by_cases h : c = sep
    · subst h
      simp [splitAux, ih, List.count_cons]
    · simp [splitAux, h, ih, List.count_cons]

theorem pySplit_length (sep : Char) (s : String) :
    (pySplit sep s).length = s.data.count sep + 1 := by
  simp [pySplit, splitAux_length]

theorem pySplit_join (sep : Char) (elems : List String) (hne : elems ≠ [])
    (h : ∀ e ∈ elems, sep ∉ e.data) :
    pySplit sep (pyJoin ⟨[sep]⟩ elems) = elems := by
  induction elems with
  | nil => exact absurd rfl hne
  | cons x xs ih =>
    cases xs with
    | nil =>
      simp only [pyJoin, pySplit]
      rw [splitAux_no_sep sep (h x (by simp)) []]
      simp [mk_data]
    | cons y ys =>
      have hx : sep ∉ x.data := h x (by simp)
      simp only [pyJoin, pySplit]
      rw [String.data_append, String.data_append]
      have : (String.mk [sep]).data = [sep] := rfl
      rw [this, List.append_assoc]
      rw [show ([sep] ++ (pyJoin ⟨[sep]⟩ (y :: ys)).data) =
        sep :: (pyJoin ⟨[sep]⟩ (y :: ys)).data from rfl]
      rw [splitAux_chunk sep hx]
      simp only [List.reverse_nil, List.nil_append, List.map_cons, mk_data]
      have ihr := ih (by simp) (fun e he => h e (List.mem_cons_of_mem _ he))
      simp only [pySplit] at ihr
      rw [ihr]

end OJ
namespace OJ

theorem data_brace_wrap (j : String) :
    ("\x7b" ++ j ++ "\x7d").data = '\x7b' :: (j.data ++ ['\x7d']) := by
  rw [String.data_append, String.data_append]
  rfl

theorem data_quote_wrap (j : String) :
    ("\"" ++ j ++ "\"").data = '"' :: (j.data ++ ['"']) := by
  rw [String.data_append, String.data_append]
  rfl

theorem startsWith_brace_wrap (j : String) :
    pyStartsWith ("\x7b" ++ j ++ "\x7d") "\x7b" = true := by
  simp [pyStartsWith, data_brace_wrap, List.isPrefixOf_iff_prefix]

theorem endsWith_brace_wrap (j : String) :
    pyEndsWith ("\x7b" ++ j ++ "\x7d") "\x7d" = true := by
  have h : ("\x7b" ++ j ++ "\x7d").data = ('\x7b' :: j.data) ++ ['\x7d'] := by
    simp [data_brace_wrap]
  simp only [pyEndsWith, h, List.isSuffixOf_iff_suffix]
  exact List.suffix_append _ _

theorem startsWith_quote_not_brace (j : String) :
    pyStartsWith ("\"" ++ j ++ "\"") "\x7b" = false := by
  simp [pyStartsWith, data_quote_wrap, List.isPrefixOf]

theorem startsWith_quote_wrap (j : String) :
    pyStartsWith ("\"" ++ j ++ "\"") "\"" = true := by
  simp [pyStartsWith, data_quote_wrap, List.isPrefixOf_iff_prefix]

theorem endsWith_quote_wrap (j : String) :
    pyEndsWith ("\"" ++ j ++ "\"") "\"" = true := by
  have h : ("\"" ++ j ++ "\"").data = ('"' :: j.data) ++ ['"'] := by
    simp [data_quote_wrap]
  simp only [pyEndsWith, h, List.isSuffixOf_iff_suffix]
  exact List.suffix_append _ _

theorem pyInner_brace_wrap (j : String) : pyInner ("\x7b" ++ j ++ "\x7d") = j := by
  simp [pyInner, data_brace_wrap, mk_data]

theorem pyInner_quote_wrap (j : String) : pyInner ("\"" ++ j ++ "\"") = j := by
  simp [pyInner, data_quote_wrap, mk_data]

/-- **C3**: literal normalization: a brace-delimited comma-separated list
becomes the element count followed by the whitespace-trimmed elements,
space-separated; a double-quoted token becomes its unquoted contents; any
other token passes through unchanged; in particular the three documented
round-trip examples hold. -/
theorem convert_to_greed_normalization :
    _convert_to_greed "\x7b1, 0, 1, 1, 0\x7d" = "5 1 0 1 1 0" ∧
    _convert_to_greed "\"foo\"" = "foo" ∧
    _convert_to_greed "2" = "2" ∧
    (∀ elems : List String, elems ≠ [] → (∀ e ∈ elems, ',' ∉ e.data) →
      _convert_to_greed ("\x7b" ++ pyJoin "," elems ++ "\x7d") =
        pyJoin " " (toString elems.length :: elems.map pyStrip)) ∧
    (∀ s : String, _convert_to_greed ("\"" ++ s ++ "\"") = s) ∧
    (∀ x : String, (pyStartsWith x "\x7b" && pyEndsWith x "\x7d") = false →
      (pyStartsWith x "\"" && pyEndsWith x "\"") = false →
      _convert_to_greed x = x) := by
  refine ⟨by decide, by decide, by decide, fun elems hne h => ?_, fun s => ?_, fun x h1 h2 => ?_⟩
  · unfold _convert_to_greed
    rw [startsWith_brace_wrap, endsWith_brace_wrap, pyInner_brace_wrap]
    simp only [Bool.and_self, if_true]
    have hj : pySplit ',' (pyJoin "," elems) = elems := pySplit_join ',' elems hne h
    rw [hj]
  · unfold _convert_to_greed
    rw [startsWith_quote_not_brace, startsWith_quote_wrap, endsWith_quote_wrap,
      pyInner_quote_wrap]
    simp
  · unfold _convert_to_greed
    rw [h1, h2]
    simp

/-- Witness for the brace-list and passthrough clauses of
`convert_to_greed_normalization` at concrete inputs. -/
theorem convert_to_greed_normalization_witness :
    _convert_to_greed ("\x7b" ++ pyJoin "," ["1", " 0"] ++ "\x7d") =
      pyJoin " " (toString (["1", " 0"] : List String).length ::
        (["1", " 0"] : List String).map pyStrip) ∧
    _convert_to_greed "xyz" = "xyz" := by
  constructor
  · exact convert_to_greed_normalization.2.2.2.1 ["1", " 0"] (by decide) (by decide)
  · exact convert_to_greed_normalization.2.2.2.2.2 "xyz" (by decide) (by decide)

/-- **C9**: `_convert_to_greed "\x7b\x7d" = "1 "` (one empty element, count 1,
not 0); in general the reported count of a brace-delimited literal is the
number of comma-separated segments, i.e. the comma count plus one. -/
theorem convert_to_greed_empty_brace_count :
    _convert_to_greed "\x7b\x7d" = "1 " ∧
    ∀ inner : String,
      _convert_to_greed ("\x7b" ++ inner ++ "\x7d") =
        pyJoin " " (toString (inner.data.count ',' + 1) ::
          (pySplit ',' inner).map pyStrip) := by
  refine ⟨by decide, fun inner => ?_⟩
  unfold _convert_to_greed
  rw [startsWith_brace_wrap, endsWith_brace_wrap, pyInner_brace_wrap]
  simp only [Bool.and_self, if_true]
  rw [pySplit_length]

end OJ
namespace OJ

/-! ## Dispatch-registry lemmas -/

theorem problem_from_url_of_all_none {α : Type} {problems : List (String → Option α)}
    {url : String} (h : ∀ cls ∈ problems, cls url = none) :
    problem_from_url problems url = none := by
  induction problems with
  | nil => rfl
  | cons c t ih =>
    have hc : c url = none := h c (by simp)
    have ht := ih (fun x hx => h x (List.mem_cons_of_mem _ hx))
    simp [problem_from_url, hc, ht]

theorem problem_from_url_append_of_none {α : Type} {pre : List (String → Option α)}
    (rest : List (String → Option α)) {url : String} (h : ∀ cls ∈ pre, cls url = none) :
    problem_from_url (pre ++ rest) url = problem_from_url rest url := by
  induction pre with
  | nil => rfl
  | cons c t ih =>
    have hc : c url = none := h c (by simp)
    have ht := ih (fun x hx => h x (List.mem_cons_of_mem _ hx))
    simp [problem_from_url, hc, ht]

theorem submission_from_url_of_all_none {α : Type} {submissions : List (String → Option α)}
    {url : String} (h : ∀ cls ∈ submissions, cls url = none) :
    submission_from_url submissions url = none := by
  induction submissions with
  | nil => rfl
  | cons c t ih =>
    have hc : c url = none := h c (by simp)
    have ht := ih (fun x hx => h x (List.mem_cons_of_mem _ hx))
    simp [submission_from_url, hc, ht]

theorem service_from_url_append_of_none {σ β γ : Type} {pre : List (String → Option σ)}
    (rest : List (String → Option σ)) (subs : List (String → Option β))
    (probs : List (String → Option γ)) (fs : β → σ) (fp : γ → σ) {url : String}
    (h : ∀ cls ∈ pre, cls url = none) :
    service_from_url (pre ++ rest) subs probs fs fp url =
      service_from_url rest subs probs fs fp url := by
  induction pre with
  | nil => rfl
  | cons c t ih =>
    have hc : c url = none := h c (by simp)
    have ht := ih (fun x hx => h x (List.mem_cons_of_mem _ hx))
    simp [service_from_url, hc, ht]

/-- **C1**: `problem_from_url` asks the registered problem handlers in
registration order and returns the first non-`None` result — whatever the
handlers after the match would answer — and returns `none` (as a total
function, i.e. without raising) when no registered handler matches. -/
theorem problem_from_url_first_match :
    (∀ (α : Type) (problems : List (String → Option α)) (url : String),
      (∀ cls ∈ problems, cls url = none) → problem_from_url problems url = none) ∧
    (∀ (α : Type) (pre : List (String → Option α)) (cls : String → Option α)
      (rest : List (String → Option α)) (url : String) (p : α),
      (∀ c ∈ pre, c url = none) → cls url = some p →
      problem_from_url (pre ++ cls :: rest) url = some p) := by
  constructor
  · intro α problems url h
    exact problem_from_url_of_all_none h
  · intro α pre cls rest url p hpre hcls
    rw [problem_from_url_append_of_none (cls :: rest) hpre]
    simp [problem_from_url, hcls]

/-- Witness for `problem_from_url_first_match`: a registry of two
non-matching handlers yields `none`; with a matching handler in the middle,
the first match is returned and the later `some 7` handler is never used. -/
theorem problem_from_url_first_match_witness :
    problem_from_url ([fun _ => none, fun _ => none] : List (String → Option Nat))
      "https://example.com/" = none ∧
    problem_from_url
      ([fun _ => none, fun _ => some 5, fun _ => some 7] : List (String → Option Nat))
      "https://example.com/" = some 5 := by
  constructor
  · exact problem_from_url_first_match.1 Nat _ _ (by intro cls h; fin_cases h <;> rfl)
  · exact problem_from_url_first_match.2 Nat [fun _ => none] (fun _ => some 5)
      [fun _ => some 7] "https://example.com/" 5 (by intro c h; fin_cases h <;> rfl) rfl

/-- **C6**: `service_from_url` tries the registered service handlers in
order; if none matches it resolves the URL as a submission and returns that
submission's service; failing that it resolves it as a problem and returns
that problem's service; and it returns `none` when all three fail. -/
theorem service_from_url_fallback_chain :
    (∀ (σ β γ : Type) (pre : List (String → Option σ)) (cls : String → Option σ)
      (rest : List (String → Option σ)) (subs : List (String → Option β))
      (probs : List (String → Option γ)) (fs : β → σ) (fp : γ → σ) (url : String) (s : σ),
      (∀ c ∈ pre, c url = none) → cls url = some s →
      service_from_url (pre ++ cls :: rest) subs probs fs fp url = some s) ∧
    (∀ (σ β γ : Type) (svcs : List (String → Option σ)) (subs : List (String → Option β))
      (probs : List (String → Option γ)) (fs : β → σ) (fp : γ → σ) (url : String) (b : β),
      (∀ c ∈ svcs, c url = none) → submission_from_url subs url = some b →
      service_from_url svcs subs probs fs fp url = some (fs b)) ∧
    (∀ (σ β γ : Type) (svcs : List (String → Option σ)) (subs : List (String → Option β))
      (probs : List (String → Option γ)) (fs : β → σ) (fp : γ → σ) (url : String) (g : γ),
      (∀ c ∈ svcs, c url = none) → submission_from_url subs url = none →
      problem_from_url probs url = some g →
      service_from_url svcs subs probs fs fp url = some (fp g)) ∧
    (∀ (σ β γ : Type) (svcs : List (String → Option σ)) (subs : List (String → Option β))
      (probs : List (String → Option γ)) (fs : β → σ) (fp : γ → σ) (url : String),
      (∀ c ∈ svcs, c url = none) → submission_from_url subs url = none →
      problem_from_url probs url = none →
      service_from_url svcs subs probs fs fp url = none) := by
  refine ⟨?_, ?_, ?_, ?_⟩
  · intro σ β γ pre cls rest subs probs fs fp url s hpre hcls
    rw [service_from_url_append_of_none (cls :: rest) subs probs fs fp hpre]
    simp [service_from_url, hcls]
  · intro σ β γ svcs subs probs fs fp url b hsvc hsub
    rw [show svcs = svcs ++ [] by simp,
      service_from_url_append_of_none [] subs probs fs fp hsvc]
    simp [service_from_url, hsub]
  · intro σ β γ svcs subs probs fs fp url g hsvc hsub hprob
    rw [show svcs = svcs ++ [] by simp,
      service_from_url_append_of_none [] subs probs fs fp hsvc]
    simp [service_from_url, hsub, hprob]
  · intro σ β γ svcs subs probs fs fp url hsvc hsub hprob
    rw [show svcs = svcs ++ [] by simp,
      service_from_url_append_of_none [] subs probs fs fp hsvc]
    simp [service_from_url, hsub, hprob]

/-- Witness for `service_from_url_fallback_chain`: every branch exercised at
concrete registries over `Nat` entities. -/
theorem service_from_url_fallback_chain_witness :
    service_from_url ([fun _ => none, fun _ => some 3] : List (String → Option Nat))
      ([] : List (String → Option Nat)) ([] : List (String → Option Nat))
      (fun b => b + 10) (fun g => g + 20) "u" = some 3 ∧
    service_from_url ([fun _ => none] : List (String → Option Nat))
      ([fun _ => some 4] : List (String → Option Nat)) ([] : List (String → Option Nat))
      (fun b => b + 10) (fun g => g + 20) "u" = some 14 ∧
    service_from_url ([fun _ => none] : List (String → Option Nat))
      ([fun _ => none] : List (String → Option Nat))
      ([fun _ => some 5] : List (String → Option Nat))
      (fun b => b + 10) (fun g => g + 20) "u" = some 25 ∧
    service_from_url ([fun _ => none] : List (String → Option Nat))
      ([fun _ => none] : List (String → Option Nat))
      ([fun _ => none] : List (String → Option Nat))
      (fun b => b + 10) (fun g => g + 20) "u" = none := by
  refine ⟨?_, ?_, ?_, ?_⟩
  · exact service_from_url_fallback_chain.1 Nat Nat Nat [fun _ => none] (fun _ => some 3)
      [] [] [] (fun b => b + 10) (fun g => g + 20) "u" 3
      (by intro c h; fin_cases h <;> rfl) rfl
  · exact service_from_url_fallback_chain.2.1 Nat Nat Nat [fun _ => none]
      [fun _ => some 4] [] (fun b => b + 10) (fun g => g + 20) "u" 4
      (by intro c h; fin_cases h <;> rfl) rfl
  · exact service_from_url_fallback_chain.2.2.1 Nat Nat Nat [fun _ => none]
      [fun _ => none] [fun _ => some 5] (fun b => b + 10) (fun g => g + 20) "u" 5
      (by intro c h; fin_cases h <;> rfl) rfl rfl
  · exact service_from_url_fallback_chain.2.2.2 Nat Nat Nat [fun _ => none]
      [fun _ => none] [fun _ => none] (fun b => b + 10) (fun g => g + 20) "u"
      (by intro c h; fin_cases h <;> rfl) rfl rfl

/-- **C10**: the `_TopcoderArenaData` constructor binds both the
`raw_sample_cases` attribute and the `sample_cases` attribute to the
`sample_cases` argument; the `raw_sample_cases` argument is discarded
(constructions differing only in it are identical). -/
theorem topcoderArenaData_raw_is_sample :
    ∀ (definition : List (String × Option String))
      (raw_sample_cases : List (List String × String)) (sample_cases : List TestCase),
      (_TopcoderArenaData.init definition raw_sample_cases sample_cases).raw_sample_cases =
        (_TopcoderArenaData.init definition raw_sample_cases sample_cases).sample_cases ∧
      (_TopcoderArenaData.init definition raw_sample_cases sample_cases).raw_sample_cases =
        sample_cases ∧
      (∀ other : List (List String × String),
        _TopcoderArenaData.init definition raw_sample_cases sample_cases =
          _TopcoderArenaData.init definition other sample_cases) :=
  fun _ _ _ => ⟨rfl, rfl, fun _ => rfl⟩

end OJ
namespace OJ

/-! ## Extraction-engine lemmas -/

theorem convertFrom_length (j : Nat) (raw : List (List String × String)) :
    (convertFrom j raw).length = raw.length := by
  induction raw generalizing j with
  | nil => rfl
  | cons hd tl ih =>
    obtain ⟨ins, out⟩ := hd
    simp [convertFrom, ih]

theorem convertFrom_get? (j : Nat) (raw : List (List String × String)) (i : Nat)
    (h : i < raw.length) :
    (convertFrom j raw).get? i = some {
      name := "Example #" ++ toString (j + i),
      input_label := "input",
      input_bytes := pyJoin "\n" ((raw.getD i ([], "")).1.map _convert_to_greed) ++ "\n",
      output_label := "output",
      output_bytes := _convert_to_greed (raw.getD i ([], "")).2 } := by
  induction raw generalizing i j with
  | nil => simp at h
  | cons hd tl ih =>
    obtain ⟨ins, out⟩ := hd
    cases i with
    | zero => simp [convertFrom, List.getD]
    | succ k =>
      have hk : k < tl.length := by simpa using h
      have harith : j + (k + 1) = (j + 1) + k := by omega
      rw [harith]
      have := ih (j + 1) k hk
      simpa [convertFrom, List.getD] using this

/-- **C8**: every `TestCase` built by the conversion loop is named
`Example #<index>` with the zero-based index equal to its position, carries
the labels `input` and `output`, has as input the newline-joined normalized
input tokens plus exactly one trailing newline, and as output the
normalized output value — which the `<pre>` scan produced by stripping the
`Returns: ` marker — with nothing appended. -/
theorem convertSampleCases_fields :
    ∀ raw : List (List String × String),
      (convertSampleCases raw).length = raw.length ∧
      (∀ i : Nat, i < raw.length →
        (convertSampleCases raw).get? i = some {
          name := "Example #" ++ toString i,
          input_label := "input",
          input_bytes := pyJoin "\n" ((raw.getD i ([], "")).1.map _convert_to_greed) ++ "\n",
          output_label := "output",
          output_bytes := _convert_to_greed (raw.getD i ([], "")).2 }) ∧
      (∀ (s : String) (pres : List Node) (inputs : List String),
        pyStartsWith s "Returns: " = true →
        scanPres (Node.text s :: pres) inputs = .ok (inputs, pyDrop s 9)) := by
  intro raw
  refine ⟨convertFrom_length 0 raw, fun i h => ?_, fun s pres inputs hs => ?_⟩
  · have := convertFrom_get? 0 raw i h
    simpa using this
  · simp [scanPres, Node.string, hs]

/-- Witness for `convertSampleCases_fields` at the spec's scenario A. -/
theorem convertSampleCases_fields_witness :
    (convertSampleCases [(["\x7b5, 8\x7d", "\"foo\""], "40.0"), (["3.5"], "7.0")]).get? 1 =
      some { name := "Example #1", input_label := "input", input_bytes := "3.5\n",
             output_label := "output", output_bytes := "7.0" } ∧
    scanPres [Node.text "Returns: 40.0"] ["3.5"] = .ok (["3.5"], "40.0") := by
  constructor
  · have := (convertSampleCases_fields
      [(["\x7b5, 8\x7d", "\"foo\""], "40.0"), (["3.5"], "7.0")]).2.1 1 (by decide)
    exact this.trans (by rfl)
  · have := (convertSampleCases_fields []).2.2 "Returns: 40.0" [] ["3.5"] (by decide)
    exact this.trans (by rfl)

/-- **C5**: whenever the example-block header row is a `tr` whose first `td`
text differs from `<k>)` — `k` being the number of examples collected so
far — the loop raises `SampleParseError` at that block, for every
continuation of the document, carrying no partial result. -/
theorem readExamples_header_mismatch_fails :
    ∀ (r : Node) (rest : List Node) (acc : List (List String × String)) (td : Node),
      r.name = some "tr" →
      findNode (isTag "td") r = some td →
      td.string ≠ some (toString acc.length ++ ")") →
      readExamples (r :: rest) acc =
        .error (.sampleParseError
          ("<td ...>)" ++ toString acc.length ++ ")</td> is expected, but not found")) := by
  intro r rest acc td hname hfind hne
  have hb : (td.string == some (toString acc.length ++ ")")) = false :=
    beq_eq_false_iff_ne.mpr hne
  cases rest with
  | nil => simp [readExamples, hname, hfind, hb]
  | cons r2 rest2 => simp [readExamples, hname, hfind, hb]

/-- Witness for `readExamples_header_mismatch_fails`: a first block headed
`2)` where `0)` is expected fails immediately. -/
theorem readExamples_header_mismatch_fails_witness :
    readExamples [mismatchRow] [] =
      .error (.sampleParseError "<td ...>)0)</td> is expected, but not found") := by
  have := readExamples_header_mismatch_fails mismatchRow [] []
    (.elem "td" [] [.text "2)"]) rfl rfl (by decide)
  exact this.trans (by rfl)

theorem readDefinitionGo_error_of_missing (sect : Node) :
    ∀ (specs : List (String × String)) (acc : List (String × Option String)),
      (∃ pair ∈ specs, findPath (isTagClassText "td" "statText" pair.1) sect = none) →
      readDefinitionGo sect specs acc = .error .attributeError := by
  intro specs
  induction specs with
  | nil =>
    rintro acc ⟨pair, hp, _⟩
    cases hp
  | cons hd tl ih =>
    obtain ⟨text, key⟩ := hd
    rintro acc ⟨pair, hmem, hnone⟩
    rcases List.mem_cons.mp hmem with rfl | hmem'
    · simp [readDefinitionGo, hnone]
    · cases hfd : findPath (isTagClassText "td" "statText" text) sect with
      | none => simp [readDefinitionGo, hfd]
      | some p =>
        cases hsib : nextSibNode sect p with
        | none => simp [readDefinitionGo, hfd, hsib]
        | some sib =>
          simp only [readDefinitionGo, hfd, hsib]
          exact ih _ ⟨pair, hmem', hnone⟩

/-- **C4** (code bug): with the `Class:` label absent from the Definition
section, extraction does fail — no partial definition is used — but the
failure is the `AttributeError` from dereferencing the absent `td`
(`td.parent` / `td.next_sibling`, topcoder.py lines 136-137), not the
`SampleParseError` the claim states. -/
theorem readDefinition_missing_label_attribute_error :
    findPath (isTagClassText "td" "statText" "Class:") secMissingClass = none ∧
    readDefinition secMissingClass = .error .attributeError ∧
    raisedSampleParseError (readDefinition secMissingClass) = false :=
  ⟨by decide, by rfl, by decide⟩

end OJ
namespace OJ

/-! ## Integer-parsing and URL-matcher lemmas -/

theorem isPySpace_eq_false_of_isDigit {c : Char} (h : c.isDigit = true) :
    isPySpace c = false := by
  simp only [isPySpace, Bool.or_eq_false_iff, decide_eq_false_iff_not]
  repeat' apply And.intro
  all_goals rintro rfl
  all_goals exact absurd h (by decide)

theorem dropWhile_eq_self_of_no_space {l : List Char}
    (h : ∀ c ∈ l, isPySpace c = false) : l.dropWhile isPySpace = l := by
  cases l with
  | nil => rfl
  | cons c t => simp [List.dropWhile, h c (by simp)]

theorem pyStrip_of_digits {s : String} (h : ∀ c ∈ s.data, c.isDigit = true) :
    pyStrip s = s := by
  have h1 : ∀ c ∈ s.data, isPySpace c = false :=
    fun c hc => isPySpace_eq_false_of_isDigit (h c hc)
  unfold pyStrip
  rw [dropWhile_eq_self_of_no_space h1,
    dropWhile_eq_self_of_no_space (fun c hc => h1 c (List.mem_reverse.mp hc))]
  simp [mk_data]

theorem decDigits?_isSome_of_digits {l : List Char} (hne : l ≠ [])
    (h : ∀ c ∈ l, c.isDigit = true) : ∃ k : Nat, decDigits? l = some k := by
  cases l with
  | nil => exact absurd rfl hne
  | cons c t =>
    refine ⟨(c :: t).foldl (fun a x => 10 * a + (x.toNat - 48)) 0, ?_⟩
    simp only [decDigits?]
    rw [if_pos (List.all_eq_true.mpr h)]

theorem pyInt_isSome_of_digits {s : String} (hne : s ≠ "")
    (h : ∀ c ∈ s.data, c.isDigit = true) : ∃ k : Int, pyInt s = some k := by
  unfold pyInt
  rw [pyStrip_of_digits h]
  have hd : s.data ≠ [] := data_ne_nil hne
  cases hl : s.data with
  | nil => exact absurd hl hd
  | cons c t =>
    have hc : c.isDigit = true := h c (by rw [hl]; exact List.mem_cons_self c t)
    have hplus : c ≠ '+' := by rintro rfl; exact absurd hc (by decide)
    have hminus : c ≠ '-' := by rintro rfl; exact absurd hc (by decide)
    obtain ⟨k, hk⟩ := decDigits?_isSome_of_digits (l := c :: t) (by simp)
      (fun x hx => h x (by rw [hl]; exact hx))
    refine ⟨Int.ofNat k, ?_⟩
    split
    · next rest heq => exact absurd (List.head_eq_of_cons_eq heq) hplus
    · next rest heq => exact absurd (List.head_eq_of_cons_eq heq) hminus
    · next l hne1 hne2 => rw [hk]; rfl

theorem not_mem_data_of_digits {s : String} (h : ∀ c ∈ s.data, c.isDigit = true)
    {x : Char} (hx : x.isDigit = false) : x ∉ s.data := by
  intro hm
  rw [h x hm] at hx
  cases hx

theorem data_ne_nil_of_pyInt_some {v : String} {n : Int} (h : pyInt v = some n) :
    v.data ≠ [] := by
  intro hd
  obtain ⟨l⟩ := v
  simp at hd
  subst hd
  rw [show pyInt (String.mk []) = none from rfl] at h
  exact Option.noConfusion h

end OJ
namespace OJ

theorem pySplit_arena_fragment (r co s d rm : String)
    (hr : '/' ∉ r.data) (hco : '/' ∉ co.data) (hs : '/' ∉ s.data)
    (hd : '/' ∉ d.data) (hrm : '/' ∉ rm.data) :
    pySplit '/' ("/u/practiceCode/" ++ r ++ "/" ++ co ++ "/" ++ s ++ "/" ++ d ++ "/" ++ rm) =
      ["", "u", "practiceCode", r, co, s, d, rm] := by
  have h0 : ("/u/practiceCode/" : String).data =
      ['/', 'u', '/', 'p', 'r', 'a', 'c', 't', 'i', 'c', 'e', 'C', 'o', 'd', 'e', '/'] := rfl
  have h1 : ("/" : String).data = ['/'] := rfl
  have hfrag :
      ("/u/practiceCode/" ++ r ++ "/" ++ co ++ "/" ++ s ++ "/" ++ d ++ "/" ++ rm).data =
      '/' :: (['u'] ++ '/' ::
        (['p', 'r', 'a', 'c', 't', 'i', 'c', 'e', 'C', 'o', 'd', 'e'] ++ '/' ::
          (r.data ++ '/' :: (co.data ++ '/' :: (s.data ++ '/' ::
            (d.data ++ '/' :: rm.data)))))) := by
    simp [String.data_append, h0, h1]
  unfold pySplit
  rw [hfrag, splitAux_sep_cons,
    splitAux_chunk '/' (m := ['u']) (by decide),
    splitAux_chunk '/' (m := ['p', 'r', 'a', 'c', 't', 'i', 'c', 'e', 'C', 'o', 'd', 'e'])
      (by decide),
    splitAux_chunk '/' hr, splitAux_chunk '/' hco, splitAux_chunk '/' hs,
    splitAux_chunk '/' hd, splitAux_no_sep '/' hrm]
  simp [mk_data]

theorem pySplit_community_query (v : String) (hv : '&' ∉ v.data) :
    pySplit '&' ("c=problem_statement&pm=" ++ v) = ["c=problem_statement", "pm=" ++ v] := by
  have h0 : ("c=problem_statement&pm=" : String).data =
      ['c', '=', 'p', 'r', 'o', 'b', 'l', 'e', 'm', '_', 's', 't', 'a', 't', 'e',
       'm', 'e', 'n', 't', '&', 'p', 'm', '='] := rfl
  have hq : ("c=problem_statement&pm=" ++ v).data =
      ['c', '=', 'p', 'r', 'o', 'b', 'l', 'e', 'm', '_', 's', 't', 'a', 't', 'e',
       'm', 'e', 'n', 't'] ++ '&' :: (['p', 'm', '='] ++ v.data) := by
    simp [String.data_append, h0]
  unfold pySplit
  rw [hq, splitAux_chunk '&'
      (m := ['c', '=', 'p', 'r', 'o', 'b', 'l', 'e', 'm', '_', 's', 't', 'a', 't', 'e',
        'm', 'e', 'n', 't']) (by decide),
    splitAux_no_sep '&' (m := ['p', 'm', '='] ++ v.data) (by
      intro hmem
      rcases List.mem_append.mp hmem with h | h
      · revert h; decide
      · exact hv h)]
  have hpm : ("pm=" ++ v).data = 'p' :: 'm' :: '=' :: v.data := by
    have h2 : ("pm=" : String).data = ['p', 'm', '='] := rfl
    simp [String.data_append, h2]
  have hmk : String.mk ('p' :: 'm' :: '=' :: v.data) = "pm=" ++ v := by
    rw [← hpm, mk_data]
  simp [mk_data, hmk]

end OJ
namespace OJ

theorem parse_qsl_community (v : String) (hv : '&' ∉ v.data) (hne : v.data ≠ []) :
    parse_qsl ("c=problem_statement&pm=" ++ v) = [("c", "problem_statement"), ("pm", v)] := by
  have hpm : ("pm=" ++ v).data = 'p' :: 'm' :: '=' :: v.data := by
    have h2 : ("pm=" : String).data = ['p', 'm', '='] := rfl
    simp [String.data_append, h2]
  unfold parse_qsl
  rw [pySplit_community_query v hv]
  simp [breakAtEq, hpm, hne, mk_data]

theorem from_url_arena_of_ints (r co s d rm : String)
    (hr : '/' ∉ r.data) (hco : '/' ∉ co.data) (hs : '/' ∉ s.data)
    (hd : '/' ∉ d.data) (hrm : '/' ∉ rm.data)
    (kr kco kd krm n : Int)
    (hir : pyInt r = some kr) (hico : pyInt co = some kco) (his : pyInt s = some n)
    (hid : pyInt d = some kd) (hirm : pyInt rm = some krm) :
    TopcoderArenaProblem.from_url (arenaURL r co s d rm) = some ⟨n⟩ := by
  unfold TopcoderArenaProblem.from_url
  simp only [arenaURL, normpath]
  rw [pySplit_arena_fragment r co s d rm hr hco hs hd hrm]
  simp [hir, hico, his, hid, hirm]

theorem from_url_community_of_int (v : String) (hv : '&' ∉ v.data) (n : Int)
    (hiv : pyInt v = some n) :
    TopcoderArenaProblem.from_url (communityURL v) = some ⟨n⟩ := by
  unfold TopcoderArenaProblem.from_url
  simp only [communityURL, normpath]
  rw [parse_qsl_community v hv (data_ne_nil_of_pyInt_some hiv)]
  simp [qsGet, hiv]

/-- **C2**: for every problem id (given as the digit string `s` of its decimal
numeral, with `pyInt s = some n`), both documented URL forms — the arena
fragment form `/u/practiceCode/<round>/<component>/s/<division>/<room>` (for
any numeric values of the other four segments) and the community query form
`stat?c=problem_statement&pm=s` — are accepted by
`TopcoderArenaProblem.from_url` and yield the identical `problem_id = n`,
and `get_url` on that entity is the canonical
`https://community.topcoder.com/stat?c=problem_statement&pm=<n>`. -/
theorem topcoder_from_url_both_forms_canonical :
    ∀ (r co s d rm : String) (n : Int),
      (∀ c ∈ r.data, c.isDigit = true) → r ≠ "" →
      (∀ c ∈ co.data, c.isDigit = true) → co ≠ "" →
      (∀ c ∈ d.data, c.isDigit = true) → d ≠ "" →
      (∀ c ∈ rm.data, c.isDigit = true) → rm ≠ "" →
      (∀ c ∈ s.data, c.isDigit = true) → pyInt s = some n →
      TopcoderArenaProblem.from_url (arenaURL r co s d rm) = some ⟨n⟩ ∧
      TopcoderArenaProblem.from_url (communityURL s) = some ⟨n⟩ ∧
      TopcoderArenaProblem.get_url ⟨n⟩ =
        "https://community.topcoder.com/stat?c=problem_statement&pm=" ++ toString n := by
  intro r co s d rm n hdr hrne hdco hcone hdd hdne hdrm hrmne hds his
  have hslash : ('/' : Char).isDigit = false := by decide
  have hamp : ('&' : Char).isDigit = false := by decide
  obtain ⟨kr, hir⟩ := pyInt_isSome_of_digits hrne hdr
  obtain ⟨kco, hico⟩ := pyInt_isSome_of_digits hcone hdco
  obtain ⟨kd, hid⟩ := pyInt_isSome_of_digits hdne hdd
  obtain ⟨krm, hirm⟩ := pyInt_isSome_of_digits hrmne hdrm
  refine ⟨?_, ?_, rfl⟩
  · exact from_url_arena_of_ints r co s d rm
      (not_mem_data_of_digits hdr hslash) (not_mem_data_of_digits hdco hslash)
      (not_mem_data_of_digits hds hslash) (not_mem_data_of_digits hdd hslash)
      (not_mem_data_of_digits hdrm hslash) kr kco kd krm n hir hico his hid hirm
  · exact from_url_community_of_int s (not_mem_data_of_digits hds hamp) n his

/-- Witness for `topcoder_from_url_both_forms_canonical` at the documented
example problem 10760. -/
theorem topcoder_from_url_both_forms_canonical_witness :
    TopcoderArenaProblem.from_url (arenaURL "14230" "10838" "10760" "1" "303803") =
      some ⟨10760⟩ ∧
    TopcoderArenaProblem.from_url (communityURL "10760") = some ⟨10760⟩ ∧
    TopcoderArenaProblem.get_url ⟨10760⟩ =
      "https://community.topcoder.com/stat?c=problem_statement&pm=10760" := by
  have h := topcoder_from_url_both_forms_canonical "14230" "10838" "10760" "1" "303803" 10760
    (by decide) (by decide) (by decide) (by decide) (by decide) (by decide)
    (by decide) (by decide) (by decide) (by decide)
  exact ⟨h.1, h.2.1, h.2.2.trans (by decide)⟩

theorem from_url_int_chain_none (o1 o2 o3 o4 o5 : Option Int)
    (h : o1 = none ∨ o2 = none ∨ o3 = none ∨ o4 = none ∨ o5 = none) :
    (o1.bind fun _ => o2.bind fun _ => o3.bind fun problem_id =>
      o4.bind fun _ => o5.bind fun _ =>
        some ({ problem_id := problem_id } : TopcoderArenaProblem)) = none := by
  rcases h with h | h | h | h | h
  · simp [h]
  · cases o1 <;> simp [h]
  · cases o1 <;> cases o2 <;> simp [h]
  · cases o1 <;> cases o2 <;> cases o3 <;> simp [h]
  · cases o1 <;> cases o2 <;> cases o3 <;> cases o4 <;> simp [h]

/-- **C7**: a URL whose host and path shape match a Topcoder problem form
but in which a required identifier segment — any of the five fragment
segments of the arena form, or the `pm` query value of the community form —
fails strict integer parsing is declined: `from_url` returns `none` (it is
a total function, so nothing is raised). -/
theorem topcoder_from_url_declines_bad_int :
    (∀ r co s d rm : String,
      '/' ∉ r.data → '/' ∉ co.data → '/' ∉ s.data → '/' ∉ d.data → '/' ∉ rm.data →
      (pyInt r = none ∨ pyInt co = none ∨ pyInt s = none ∨ pyInt d = none ∨
        pyInt rm = none) →
      TopcoderArenaProblem.from_url (arenaURL r co s d rm) = none) ∧
    (∀ v : String, '&' ∉ v.data → pyInt v = none →
      TopcoderArenaProblem.from_url (communityURL v) = none) := by
  constructor
  · intro r co s d rm hr hco hs hd hrm hbad
    unfold TopcoderArenaProblem.from_url
    simp only [arenaURL, normpath]
    rw [pySplit_arena_fragment r co s d rm hr hco hs hd hrm]
    have hc := from_url_int_chain_none (pyInt r) (pyInt co) (pyInt s) (pyInt d)
      (pyInt rm) hbad
    simp [hc]
  · intro v hv hiv
    by_cases hne : v.data = []
    · obtain ⟨l⟩ := v
      simp only at hne
      subst hne
      decide
    · unfold TopcoderArenaProblem.from_url
      simp only [communityURL, normpath]
      rw [parse_qsl_community v hv hne]
      simp [qsGet, hiv]

/-- Witness for `topcoder_from_url_declines_bad_int`: both documented forms
with the non-numeric problem identifier `xyz` are declined. -/
theorem topcoder_from_url_declines_bad_int_witness :
    TopcoderArenaProblem.from_url (arenaURL "14230" "10838" "xyz" "1" "303803") = none ∧
    TopcoderArenaProblem.from_url (communityURL "xyz") = none := by
  constructor
  · exact topcoder_from_url_declines_bad_int.1 "14230" "10838" "xyz" "1" "303803"
      (by decide) (by decide) (by decide) (by decide) (by decide)
      (Or.inr (Or.inr (Or.inl (by decide))))
  · exact topcoder_from_url_declines_bad_int.2 "xyz" (by decide) (by decide)

end OJ
